import Mathlib

/-!
Verification of the pipeline orchestrator of the medical audio transcription
backend (FastAPI service in `backend/main.py` with helper services
`groq_service.py` and `language_service.py`).

The Python functions are shallowly embedded as Lean functions:

* external I/O (clock, filesystem, HTTP providers) is passed in explicitly,
  either as function arguments (`provider`, attempt-indexed transcription
  results, poll-indexed file sizes) or as small inductive state types;
* Python dictionaries with a fixed key schema become structures
  (`Status`) or ordered association lists (`SummaryRecord`);
* machine time is discretized: the 0.5-second poll interval of
  `wait_until_ready` becomes one step of a fuel-indexed recursion, so a
  timeout of `t` seconds yields `2 * t` polls;
* exceptions become `Except` values, and `try/except` blocks become a
  `match` on them.
-/

/-! ## Data model -/

/-- One diarized utterance, as the pipeline stores it after the
transcription stage (`main.py`, lines 272-280): speaker label, text and
millisecond offsets. -/
structure Utt where
  speaker : String
  text : String
  start_ms : Int
  end_ms : Int
deriving DecidableEq, Repr

/-- A transcription-provider result object, as used by the pipeline: the
full recognized text plus the diarized utterances. -/
structure Transcript where
  text : String
  utterances : List Utt
deriving DecidableEq, Repr

/-- The status record written by `write_status` and served by
`get_status`.  Optional fields are absent (`none`) in the payloads that do
not set them, mirroring the Python dict literals. -/
structure Status where
  source : Option String := none
  file : Option String := none
  language : Option String := none
  stage : String
  message : String
  error : Option String := none
  progress : Nat
  timestamp : Option Int := none
deriving DecidableEq, Repr

/-! ## Python string helpers

`str.strip()` does not have a kernel-reducible counterpart on Lean's
`String`, so it is embedded via the character list: drop whitespace from
the front, then from the back. -/

/-- Characters of a string with leading and trailing whitespace removed,
the embedding of Python's `str.strip()`. -/
def stripChars (l : List Char) : List Char :=
  ((l.dropWhile Char.isWhitespace).reverse.dropWhile Char.isWhitespace).reverse

/-- Embedding of Python's `text.strip()`. -/
def pyStrip (s : String) : String := String.mk (stripChars s.data)

/-! ## Summarization input truncation (`groq_service.generate_summary`)

`generate_summary` builds the conversation string sent to the LLM:

    convo = []
    chars = 0
    for u in utterances:
        line = f"{u['speaker']}: {u['text']}\n"
        chars += len(line)
        if chars > 6000:
            break
        convo.append(line)
-/

/-- The formatted line `f"{u['speaker']}: {u['text']}\n"`. -/
def formatLine (u : Utt) : String := u.speaker ++ ": " ++ u.text ++ "\n"

/-- The truncation loop of `generate_summary`: `chars` is the running
total including the current line; the loop breaks (dropping the current
line and all later ones) as soon as that total exceeds 6000. -/
def convoLines : Nat → List Utt → List String
  | _, [] => []
  | chars, u :: rest =>
    if 6000 < chars + (formatLine u).length then []
    else formatLine u :: convoLines (chars + (formatLine u).length) rest

/-- The conversation string sent to the summarization provider:
`"".join(convo)`. -/
def generate_summary_conversation (us : List Utt) : String :=
  String.join (convoLines 0 us)

/-- Stated rule of claim C1, written from the claim's words rather than
from the code: an utterance is included if the cumulative length *before*
adding it had not yet exceeded the 6000-character budget; once one
utterance is cut, all later ones are cut. -/
def convoLinesClaimedRule : Nat → List Utt → List String
  | _, [] => []
  | chars, u :: rest =>
    if 6000 < chars then []
    else formatLine u :: convoLinesClaimedRule (chars + (formatLine u).length) rest

/-- Total character count of a list of lines. -/
def sumLen (l : List String) : Nat := (l.map String.length).sum

/-- A two-utterance input whose formatted lines are 4000 characters each:
`"A" ++ ": " ++ 3996 characters ++ "\n"`. -/
def exUtt : Utt := ⟨"A", String.mk (List.replicate 3996 'a'), 0, 0⟩

/-! ## Readiness prober (`main.wait_until_ready`)

    last_size = -1
    start = time.time()
    stable_count = 0
    while time.time() - start < timeout:
        try:
            size = path.stat().st_size
            if size > 0 and size == last_size:
                stable_count += 1
                if stable_count >= 2:
                    return True
            else:
                stable_count = 0
            last_size = size
        except FileNotFoundError:
            pass
        time.sleep(0.5)
    return False

Polling is discretized: `obs k` is the observed size at the `k`-th poll
(`none` when `stat` raises `FileNotFoundError`), and a timeout of `t`
time units allows the polls `k` with `k * 0.5 < t`, i.e. `k < 2 * t`.
The initial `last_size = -1` can never equal a real size, so it is
modelled as `none`. -/

/-- One iteration of the polling loop of `wait_until_ready`, indexed by
the remaining number of polls the timeout allows. -/
def wurStep (obs : Nat → Option Nat) : Nat → Nat → Option Nat → Nat → Bool
  | 0, _, _, _ => false
  | fuel + 1, k, lastSize, stableCount =>
    match obs k with
    | some size =>
      if 0 < size ∧ some size = lastSize then
        if 2 ≤ stableCount + 1 then true
        else wurStep obs fuel (k + 1) (some size) (stableCount + 1)
      else wurStep obs fuel (k + 1) (some size) 0
    | none => wurStep obs fuel (k + 1) lastSize stableCount

/-- The readiness prober: polls sizes `obs` until `timeout` elapses. -/
def wait_until_ready (obs : Nat → Option Nat) (timeout : Nat) : Bool :=
  wurStep obs (2 * timeout) 0 none 0

/-- Readiness condition as claim C2 states it: before the timeout
elapses, the size is observed strictly positive and unchanged across two
consecutive polls. -/
def readyTwoConsecutivePolls (obs : Nat → Option Nat) (timeout : Nat) : Prop :=
  ∃ j s, j + 1 < 2 * timeout ∧ obs j = some s ∧ obs (j + 1) = some s ∧ 0 < s

/-- Readiness condition the code actually implements (for an entry that
is observable at every poll): a strictly positive size unchanged across
three consecutive polls, all before the timeout elapses. -/
def readyThreeConsecutivePolls (sizes : Nat → Nat) (timeout : Nat) : Prop :=
  ∃ j, j + 2 < 2 * timeout ∧ sizes (j + 1) = sizes j ∧
    sizes (j + 2) = sizes j ∧ 0 < sizes j

/-! ## Role-based formatter (`main.format_role_based_text`)

    if not utterances:
        return ""
    speaker_lengths = {}
    for u in utterances:
        speaker_lengths[u["speaker"]] = speaker_lengths.get(u["speaker"], 0) + len(u["text"])
    doctor_speaker = max(speaker_lengths, key=speaker_lengths.get) if speaker_lengths else None
    lines = [
        f"{'Doctor' if u['speaker'] == doctor_speaker else 'Patient'}: {u['text']}"
        for u in utterances
    ]
    return "\n".join(lines)

The dict is embedded by its insertion-ordered key list plus the
per-speaker totals; Python's `max` returns the first key (in insertion
order) attaining the maximal value. -/

/-- Total character count of one speaker's utterances, the value stored
in `speaker_lengths`. -/
def speakerTotal (us : List Utt) (s : String) : Nat :=
  ((us.filter (fun u => u.speaker = s)).map (fun u => u.text.length)).sum

/-- Key insertion into the `speaker_lengths` dict: a new key is appended,
an existing key keeps its position. -/
def insertSpeaker (ks : List String) (s : String) : List String :=
  if s ∈ ks then ks else ks ++ [s]

/-- The insertion-ordered key list of `speaker_lengths`. -/
def speakerKeys (us : List Utt) : List String :=
  us.foldl (fun ks u => insertSpeaker ks u.speaker) []

/-- Python's `max(keys, key=speaker_lengths.get)`: the first key in
iteration order attaining the maximal total. -/
def maxBySpeakerTotal (us : List Utt) : List String → Option String
  | [] => none
  | k :: ks =>
    some (ks.foldl (fun b k2 => if speakerTotal us b < speakerTotal us k2 then k2 else b) k)

/-- The speaker labeled "Doctor". -/
def doctor_speaker (us : List Utt) : Option String :=
  maxBySpeakerTotal us (speakerKeys us)

/-- The role-based transcript rendering. -/
def format_role_based_text (us : List Utt) : String :=
  match us with
  | [] => ""
  | _ :: _ =>
    String.intercalate "\n"
      (us.map (fun u =>
        (if some u.speaker = doctor_speaker us then "Doctor" else "Patient") ++ ": " ++ u.text))

/-! ## Language detection (`main.detect_language_from_text`)

    for ch in text[:500]:
        if "ऀ" <= ch <= "ॿ":
            return "hi"
    return "en"

The `lru_cache` decorator only memoizes a pure function and does not
change its value, so it is not modelled. -/

/-- Language heuristic: scan the first 500 characters for a code point in
the Devanagari block. -/
def detect_language_from_text (text : String) : String :=
  if (text.data.take 500).any (fun ch => 0x900 ≤ ch.toNat ∧ ch.toNat ≤ 0x97F) then "hi"
  else "en"

/-! ## Translation service (`language_service.translate_text`)

    if not text or not text.strip():
        return text
    ...
    response = client.chat.completions.create(...)
    return response.choices[0].message.content.strip()

The chat-completion call is abstracted as `provider : String → String →
String` taking the source text and the target language; the embedding
also returns whether the provider was invoked. -/

/-- The translation wrapper: blank input short-circuits without calling
the provider; otherwise the provider's output is stripped. -/
def translate_text (provider : String → String → String)
    (text target_lang : String) : String × Bool :=
  if text = "" ∨ pyStrip text = "" then (text, false)
  else (pyStrip (provider text target_lang), true)

/-! ## Summary record translation (`main.process_audio_pipeline`, lines 318-326)

    if language != "en":
        summary_final = {
            k: [translate_text(i, language) for i in v]
            if isinstance(v, list)
            else translate_text(v, language)
            for k, v in summary_en.items()
        }
    else:
        summary_final = summary_en

The summary record is an insertion-ordered JSON object whose values are
strings or lists of strings; it is embedded as an association list. -/

/-- A JSON value of the summary schema: a scalar string or a list of
strings. -/
inductive JVal where
  | s (v : String)
  | arr (items : List String)
deriving DecidableEq, Repr

/-- The summary record: an insertion-ordered association list. -/
abbrev SummaryRecord := List (String × JVal)

/-- Translation of one value of the dict comprehension. -/
def translateVal (tr : String → String) : JVal → JVal
  | .s v => .s (tr v)
  | .arr l => .arr (l.map tr)

/-- The dict comprehension: every value is translated, keys are kept. -/
def translateSummaryRecord (tr : String → String) (rec : SummaryRecord) :
    SummaryRecord :=
  rec.map (fun kv => (kv.1, translateVal tr kv.2))

/-- `summary_final`: the conditional translation step of the pipeline. -/
def summaryFinal (tr : String → String) (language : String)
    (summary_en : SummaryRecord) : SummaryRecord :=
  if language ≠ "en" then translateSummaryRecord tr summary_en else summary_en

/-! ## Pipeline engine (`main.process_audio_pipeline`)

The pipeline's external collaborators are collected in `PipelineEnv`:

* `transcribe n` is the result of the `n`-th call to
  `assembly_service.transcribe_audio` (`Except.error` when the call
  raises);
* `summarize` is `groq_service.generate_summary` on the transcript
  record (`Except.error` when it raises; the returned dict may be empty,
  which the pipeline treats as `Summary generation failed`);
* `translateProvider` is the chat-completion backing
  `language_service.translate_text`;
* `renderPdf` is `pdf_service.generate_pdf`.

Durable file writes of the transcript/summary JSON artifacts are plain
`open(...).write` calls with no behavior relevant to the claims and are
not modelled.  The result collects the run's boolean outcome, the
sequence of `write_status` payloads, the backoff sleeps (in time units),
and the number of transcription attempts actually made. -/

/-- The transcript JSON artifact written after the transcription stage. -/
structure TranscriptJson where
  audio_file : String
  language : String
  full_text : String
  utterances : List Utt
deriving DecidableEq, Repr

/-- External collaborators of one pipeline run. -/
structure PipelineEnv where
  transcribe : Nat → Except String Transcript
  summarize : TranscriptJson → Except String SummaryRecord
  translateProvider : String → String → String
  renderPdf : SummaryRecord → String → Except String Unit

/-- Observable outcome of one pipeline run. -/
structure PipelineResult where
  success : Bool
  statuses : List Status
  sleeps : List Nat
  transcribeCalls : Nat
deriving DecidableEq, Repr

/-- The transcription retry loop:

    transcript = None
    for attempt in range(2):
        try:
            transcript = transcribe_audio(str(wav_path))
            if transcript and getattr(transcript, "text", None):
                break
        except Exception as e:
            logger.warning(...)
            if attempt < 1:
                time.sleep(2)

Returns the final value of `transcript`, the sleeps performed, and the
number of provider calls made.  On an exception `transcript` keeps its
previous value; a sleep happens only after a first-attempt exception. -/
def transcribeLoop (tr : Nat → Except String Transcript) :
    Option Transcript × List Nat × Nat :=
  match tr 0 with
  | .ok t0 =>
    if t0.text ≠ "" then (some t0, [], 1)
    else
      match tr 1 with
      | .ok t1 => (some t1, [], 2)
      | .error _ => (some t0, [], 2)
  | .error _ =>
    match tr 1 with
    | .ok t1 => (some t1, [2], 2)
    | .error _ => (none, [2], 2)

/-- The status payload written from the `except` branch of the pipeline:
`message = f"Error: {str(e)}"`. -/
def errorStatus (source base msg : String) : Status :=
  { source := some source, file := some base, stage := "error",
    message := "Error: " ++ msg, error := some msg, progress := 0 }

/-- One run of the pipeline state machine (the body of the `try` block
plus the `except` conversion to an error status; the semaphore wrapper is
modelled separately as `GateStep`). -/
def process_audio_pipeline (env : PipelineEnv) (base source : String) :
    PipelineResult :=
  let st20 : Status :=
    { source := some source, file := some base, stage := "transcribing",
      message := "Transcribing audio...", progress := 20 }
  match transcribeLoop env.transcribe with
  | (otr, sleeps, calls) =>
    let failT : PipelineResult :=
      ⟨false, [st20, errorStatus source base "Transcription failed or empty"], sleeps, calls⟩
    match otr with
    | none => failT
    | some t =>
      if pyStrip t.text = "" then failT
      else
        let language := detect_language_from_text t.text
        let st40 : Status :=
          { source := some source, file := some base, stage := "transcribing",
            message := "Processing transcript...", progress := 40 }
        let tj : TranscriptJson :=
          ⟨base, language, format_role_based_text t.utterances, t.utterances⟩
        let st60 : Status :=
          { source := some source, file := some base, language := some language,
            stage := "summarizing", message := "Generating summary...", progress := 60 }
        match env.summarize tj with
        | .error e => ⟨false, [st20, st40, st60, errorStatus source base e], sleeps, calls⟩
        | .ok summary_en =>
          if summary_en = [] then
            ⟨false, [st20, st40, st60, errorStatus source base "Summary generation failed"],
              sleeps, calls⟩
          else
            let st75 : Status :=
              { source := some source, file := some base, language := some language,
                stage := "summarizing",
                message := if language ≠ "en" then "Translating summary..."
                  else "Finalizing summary...", progress := 75 }
            let summary_fin := summaryFinal
              (fun x => (translate_text env.translateProvider x language).1)
              language summary_en
            let st90 : Status :=
              { source := some source, file := some base, language := some language,
                stage := "generating_pdf", message := "Creating PDF report...",
                progress := 90 }
            match env.renderPdf summary_fin language with
            | .error e =>
              ⟨false, [st20, st40, st60, st75, st90, errorStatus source base e], sleeps, calls⟩
            | .ok _ =>
              ⟨true, [st20, st40, st60, st75, st90,
                { source := some source, file := some base, language := some language,
                  stage := "completed", message := "Processing complete!", progress := 100 }],
                sleeps, calls⟩

/-! ## Status store (`main.write_status` / `main.get_status`)

    _status_cache = {"data": None, "timestamp": 0}

    def write_status(data):
        data["timestamp"] = int(time.time())
        try:
            with open(config.STATUS_FILE, "w", ...) as f:
                json.dump(data, f, ...)
            _status_cache["data"] = data
            _status_cache["timestamp"] = time.time()
        except Exception as e:
            logger.error(...)

    def get_status():
        try:
            if (_status_cache["data"] is not None and
                time.time() - _status_cache["timestamp"] < config.STATUS_CACHE_TTL):
                return _status_cache["data"]
            if not config.STATUS_FILE.exists():
                status = {"stage": "idle", "message": "Ready", "progress": 0}
            else:
                with open(config.STATUS_FILE, ...) as f:
                    status = json.load(f)
            _status_cache["data"] = status
            _status_cache["timestamp"] = time.time()
            return status
        except Exception as e:
            logger.error(...)
            return {"stage": "error", "message": "Status unavailable", "progress": 0}

The clock is passed as `now : Int`; the durable file is a three-valued
state (absent, readable with a record, unreadable); the success of the
file write in `write_status` is the flag `persistOk`. -/

/-- The in-memory status cache. -/
structure StatusCache where
  data : Option Status
  timestamp : Int
deriving DecidableEq, Repr

/-- The durable status file as `get_status` can encounter it. -/
inductive DurableStatus where
  | missing
  | readable (s : Status)
  | unreadable
deriving DecidableEq, Repr

/-- The default idle record returned when no durable record exists. -/
def idleStatus : Status :=
  { stage := "idle", message := "Ready", progress := 0 }

/-- The synthetic record returned on a durable-storage error. -/
def statusUnavailable : Status :=
  { stage := "error", message := "Status unavailable", progress := 0 }

/-- `write_status`: stamp the record, persist it, and refresh the cache —
the cache lines run inside the `try` block after the file write, so a
failed persist (`persistOk = false`) skips them.  Returns the durable
file content and the cache after the call. -/
def write_status (persistOk : Bool) (file : Option Status)
    (cache : StatusCache) (data : Status) (now : Int) :
    Option Status × StatusCache :=
  let stamped := { data with timestamp := some now }
  if persistOk then (some stamped, ⟨some stamped, now⟩)
  else (file, cache)

/-- The body of `get_status` up to the `except` handler: raises
(`Except.error`) when the durable file exists but cannot be read. -/
def get_status_body (cache : StatusCache) (now ttl : Int)
    (fs : DurableStatus) : Except Unit (Status × StatusCache) :=
  match cache.data with
  | some d =>
    if now - cache.timestamp < ttl then Except.ok (d, cache)
    else
      match fs with
      | .missing => Except.ok (idleStatus, ⟨some idleStatus, now⟩)
      | .readable s => Except.ok (s, ⟨some s, now⟩)
      | .unreadable => Except.error ()
  | none =>
    match fs with
    | .missing => Except.ok (idleStatus, ⟨some idleStatus, now⟩)
    | .readable s => Except.ok (s, ⟨some s, now⟩)
    | .unreadable => Except.error ()

/-- `get_status`: the body with its catch-all `except` handler, so the
read never raises. -/
def get_status (cache : StatusCache) (now ttl : Int) (fs : DurableStatus) :
    Status × StatusCache :=
  match get_status_body cache now ttl fs with
  | .ok r => r
  | .error _ => (statusUnavailable, cache)

/-- Written from the words of the status-store read contract: return the
cached record if its age is below the TTL; otherwise load from durable
storage, repopulating the cache; if no durable record exists, return the
default idle record; on any durable-storage error return the synthetic
unavailability record (leaving the cache as it was). -/
def get_status_specification (cache : StatusCache) (now ttl : Int)
    (fs : DurableStatus) : Status × StatusCache :=
  match cache.data with
  | some d =>
    if now - cache.timestamp < ttl then (d, cache)
    else
      match fs with
      | .missing => (idleStatus, ⟨some idleStatus, now⟩)
      | .readable s => (s, ⟨some s, now⟩)
      | .unreadable => (statusUnavailable, cache)
  | none =>
    match fs with
    | .missing => (idleStatus, ⟨some idleStatus, now⟩)
    | .readable s => (s, ⟨some s, now⟩)
    | .unreadable => (statusUnavailable, cache)

/-! ## Directory watcher per-file handling (`main.bluetooth_watcher`)

    for file_path in bluetooth_path.iterdir():
        if not file_path.is_file():
            continue
        if file_path.name in processed:
            continue
        if not file_path.suffix.lower() in [".wav", ".mp3", ".m4a", ".aac", ".ogg", ".3gp"]:
            continue
        try:
            if file_path.stat().st_size == 0:
                continue
        except:
            continue
        if not wait_until_ready(file_path):
            continue
        ... move, preprocess ...
        if process_audio_pipeline(wav_path, base, "bluetooth"):
            processed.add(file_path.name)
            save_processed(processed)

One discovered directory entry is a `WatchedFile`; the pipeline outcome
for it is the argument `runSuccess`.  The result records whether a job
was launched, the dedup ledger contents afterwards, and whether
`save_processed` was called. -/

/-- Lowercasing via the character list, the embedding of Python's
`str.lower()` (Lean's `String.toLower` is not kernel-reducible). -/
def pyLower (s : String) : String := String.mk (s.data.map Char.toLower)

/-- The accepted audio extensions of the watcher. -/
def allowedExts : List String := [".wav", ".mp3", ".m4a", ".aac", ".ogg", ".3gp"]

/-- One directory entry as the watcher observes it: name, file-ness,
suffix, size (`none` when `stat` raises) and the readiness-probe
outcome. -/
structure WatchedFile where
  name : String
  isFile : Bool
  suffix : String
  size : Option Nat
  ready : Bool
deriving DecidableEq, Repr

/-- Observable outcome of handling one directory entry. -/
structure HandleResult where
  launched : Bool
  processed : List String
  saved : Bool
deriving DecidableEq, Repr

/-- The watcher's per-file body: the chain of `continue` guards, then the
launch, then the success-conditional ledger update and persist. -/
def bluetooth_watcher_handle_file (processed : List String) (f : WatchedFile)
    (runSuccess : Bool) : HandleResult :=
  if f.isFile = false then ⟨false, processed, false⟩
  else if f.name ∈ processed then ⟨false, processed, false⟩
  else if pyLower f.suffix ∉ allowedExts then ⟨false, processed, false⟩
  else
    match f.size with
    | none => ⟨false, processed, false⟩
    | some 0 => ⟨false, processed, false⟩
    | some (_ + 1) =>
      if f.ready = false then ⟨false, processed, false⟩
      else if runSuccess then ⟨true, f.name :: processed, true⟩
      else ⟨true, processed, false⟩

/-! ## Concurrency gate (`PROCESSING_SEMAPHORE` and its use in
`process_audio_pipeline`)

    PROCESSING_SEMAPHORE = threading.Semaphore(config.MAX_CONCURRENT_PROCESSING)

    def process_audio_pipeline(...):
        if not PROCESSING_SEMAPHORE.acquire(blocking=False):
            logger.warning("Max concurrent processing reached, queuing: ...")
            PROCESSING_SEMAPHORE.acquire()  # Wait for slot
        try:
            ...
        finally:
            PROCESSING_SEMAPHORE.release()

The interleaving of client threads is modelled as a transition system on
aggregate counts: `counter` is the semaphore's free-permit count, and
each thread is in exactly one phase — `idle` (not yet probed), `queued`
(non-blocking probe failed, warning emitted, blocked in `acquire()`),
`running` (inside the guarded `try` block), or `released` (its `finally`
has run).  A thread releases exactly once because `finallyRelease` is the
only exit from `running` and `released` is terminal. -/

/-- Aggregate state of the gate and its client threads. -/
structure GateState where
  counter : Nat
  idle : Nat
  queued : Nat
  running : Nat
  released : Nat
deriving DecidableEq, Repr

/-- One interleaving step of the semaphore protocol.  There is no
rejecting transition: a thread whose probe fails only moves to `queued`
and later acquires. -/
inductive GateStep : GateState → GateState → Prop
  | probeAcquire (c i q r d : Nat) :
      GateStep ⟨c + 1, i + 1, q, r, d⟩ ⟨c, i, q, r + 1, d⟩
  | probeFailQueue (i q r d : Nat) :
      GateStep ⟨0, i + 1, q, r, d⟩ ⟨0, i, q + 1, r, d⟩
  | blockedAcquire (c i q r d : Nat) :
      GateStep ⟨c + 1, i, q + 1, r, d⟩ ⟨c, i, q, r + 1, d⟩
  | finallyRelease (c i q r d : Nat) :
      GateStep ⟨c, i, q, r + 1, d⟩ ⟨c + 1, i, q, r, d + 1⟩

/-- States reachable from `M` idle threads and a fresh semaphore with `N`
permits. -/
inductive GateReachable (N M : Nat) : GateState → Prop
  | init : GateReachable N M ⟨N, M, 0, 0, 0⟩
  | step {s s2 : GateState} :
      GateReachable N M s → GateStep s s2 → GateReachable N M s2

/-! ## Theorems -/

theorem sumLen_nil : sumLen [] = 0 := rfl

theorem sumLen_cons (x : String) (l : List String) :
    sumLen (x :: l) = x.length + sumLen l := by
  simp [sumLen]

/-- Characterization of the truncation loop for an arbitrary running
total `chars`: the result is a prefix of the formatted lines that fits
the remaining budget and is maximal with that property. -/
theorem convoLines_takeWithinBudget (us : List Utt) : ∀ chars : Nat,
    ∃ n, n ≤ us.length ∧
      convoLines chars us = (us.map formatLine).take n ∧
      (n = 0 ∨ chars + sumLen ((us.map formatLine).take n) ≤ 6000) ∧
      (n = us.length ∨ 6000 < chars + sumLen ((us.map formatLine).take (n + 1))) := by
  induction us with
  | nil =>
    intro chars
    exact ⟨0, by simp, by simp [convoLines], Or.inl rfl, Or.inl rfl⟩
  | cons u rest ih =>
    intro chars
    by_cases h : 6000 < chars + (formatLine u).length
    · refine ⟨0, by simp, ?_, Or.inl rfl, Or.inr ?_⟩
      · simp [convoLines, h]
      · simpa [sumLen_cons, sumLen_nil] using h
    · obtain ⟨m, hle, heq, hbud, hmax⟩ := ih (chars + (formatLine u).length)
      refine ⟨m + 1, by simpa using hle, ?_, Or.inr ?_, ?_⟩
      · simp [convoLines, h, heq]
      · rcases hbud with hm | hb
        · subst hm
          simp only [List.map_cons, List.take_succ_cons, List.take_zero, sumLen_cons, sumLen_nil]
          omega
        · simp only [List.map_cons, List.take_succ_cons, sumLen_cons]
          omega
      · rcases hmax with hm | hb
        · exact Or.inl (by simp [hm])
        · refine Or.inr ?_
          simp only [List.map_cons, List.take_succ_cons, sumLen_cons]
          omega

/-- Claim C1 (amended): the conversation string sent to the summarization
provider is the greedy in-order maximal prefix of the formatted
`speaker: text` lines whose cumulative character count does not exceed the
6000-character budget — an utterance is included iff the cumulative length
*after* adding its line still fits the budget; once one utterance is cut,
all later utterances are cut as well. -/
theorem generate_summary_truncation (us : List Utt) :
    ∃ n, n ≤ us.length ∧
      convoLines 0 us = (us.map formatLine).take n ∧
      generate_summary_conversation us =
        String.join ((us.map formatLine).take n) ∧
      sumLen ((us.map formatLine).take n) ≤ 6000 ∧
      (n < us.length → 6000 < sumLen ((us.map formatLine).take (n + 1))) := by
  obtain ⟨n, h1, h2, h3, h4⟩ := convoLines_takeWithinBudget us 0
  refine ⟨n, h1, h2, ?_, ?_, ?_⟩
  · rw [generate_summary_conversation, h2]
  · rcases h3 with h | h
    · subst h; simp [sumLen]
    · simpa using h
  · intro hlt
    rcases h4 with h | h
    · omega
    · simpa using h

/-- Closed-input instance of `generate_summary_truncation` at the empty
utterance list. -/
theorem generate_summary_truncation_witness :
    ∃ n, n ≤ ([] : List Utt).length ∧
      convoLines 0 [] = (([] : List Utt).map formatLine).take n ∧
      generate_summary_conversation [] =
        String.join ((([] : List Utt).map formatLine).take n) ∧
      sumLen ((([] : List Utt).map formatLine).take n) ≤ 6000 ∧
      (n < ([] : List Utt).length →
        6000 < sumLen ((([] : List Utt).map formatLine).take (n + 1))) :=
  generate_summary_truncation []

theorem formatLine_exUtt_length : (formatLine exUtt).length = 4000 := by
  show ("A" ++ ": " ++ String.mk (List.replicate 3996 'a') ++ "\n").length = 4000
  rw [String.length_append, String.length_append, String.length_append]
  have h1 : ("A" : String).length = 1 := rfl
  have h2 : (": " : String).length = 2 := rfl
  have h3 : ("\n" : String).length = 1 := rfl
  have h4 : (String.mk (List.replicate 3996 'a')).length = 3996 := by
    show (List.replicate 3996 'a').length = 3996
    rw [List.length_replicate]
  rw [h1, h2, h3, h4]

/-- Claim C1 counterexample: two utterances whose formatted lines are 4000
characters each.  The cumulative length before adding the second line is
4000, which has not exceeded the 6000 budget, so the rule stated in the
claim keeps both lines; the code keeps only the first. -/
theorem generate_summary_truncation_counterexample :
    (convoLines 0 [exUtt, exUtt]).length = 1 ∧
    (convoLinesClaimedRule 0 [exUtt, exUtt]).length = 2 ∧
    convoLines 0 [exUtt, exUtt] ≠ convoLinesClaimedRule 0 [exUtt, exUtt] := by
  have hc : convoLines 0 [exUtt, exUtt] = [formatLine exUtt] := by
    simp [convoLines, formatLine_exUtt_length]
  have hr : convoLinesClaimedRule 0 [exUtt, exUtt] =
      [formatLine exUtt, formatLine exUtt] := by
    simp [convoLinesClaimedRule, formatLine_exUtt_length]
  refine ⟨by rw [hc]; rfl, by rw [hr]; rfl, ?_⟩
  rw [hc, hr]
  intro h
  exact absurd (congrArg List.length h) (by simp)

/-- Characterization of the polling loop when the entry is observable at
every poll.  The call sits at poll index `p + 1` with `last_size` holding
the size seen at poll `p`; the first component is for `stable_count = 0`,
the second for `stable_count = 1`. -/
theorem wurStep_char (sizes : Nat → Nat) : ∀ fuel p : Nat,
    (wurStep (fun k => some (sizes k)) fuel (p + 1) (some (sizes p)) 0 = true ↔
      (∃ j, p ≤ j ∧ j + 2 < p + 1 + fuel ∧ sizes (j + 1) = sizes j ∧
        sizes (j + 2) = sizes j ∧ 0 < sizes j)) ∧
    (wurStep (fun k => some (sizes k)) fuel (p + 1) (some (sizes p)) 1 = true ↔
      ((0 < fuel ∧ 0 < sizes (p + 1) ∧ sizes (p + 1) = sizes p) ∨
        ∃ j, p ≤ j ∧ j + 2 < p + 1 + fuel ∧ sizes (j + 1) = sizes j ∧
          sizes (j + 2) = sizes j ∧ 0 < sizes j)) := by
  intro fuel
  induction fuel with
  | zero =>
    intro p
    constructor
    · refine iff_of_false (by simp [wurStep]) ?_
      rintro ⟨j, hj, hlt, -⟩
      omega
    · refine iff_of_false (by simp [wurStep]) ?_
      rintro (⟨hf, -⟩ | ⟨j, hj, hlt, -⟩) <;> omega
  | succ f ih =>
    intro p
    have e0 : wurStep (fun k => some (sizes k)) (f + 1) (p + 1) (some (sizes p)) 0 =
        if 0 < sizes (p + 1) ∧ sizes (p + 1) = sizes p then
          wurStep (fun k => some (sizes k)) f (p + 2) (some (sizes (p + 1))) 1
        else
          wurStep (fun k => some (sizes k)) f (p + 2) (some (sizes (p + 1))) 0 := by
      simp only [wurStep, Option.some.injEq]
      norm_num
    have e1 : wurStep (fun k => some (sizes k)) (f + 1) (p + 1) (some (sizes p)) 1 =
        if 0 < sizes (p + 1) ∧ sizes (p + 1) = sizes p then true
        else
          wurStep (fun k => some (sizes k)) f (p + 2) (some (sizes (p + 1))) 0 := by
      simp only [wurStep, Option.some.injEq]
      norm_num
    by_cases hc : 0 < sizes (p + 1) ∧ sizes (p + 1) = sizes p
    · constructor
      · rw [e0, if_pos hc, (ih (p + 1)).2]
        constructor
        · rintro (⟨hf, hpos2, heq2⟩ | ⟨j, hj, hlt, h1, h2, h3⟩)
          · exact ⟨p, le_refl p, by omega, hc.2, heq2.trans hc.2,
              hc.2 ▸ hc.1⟩
          · exact ⟨j, by omega, by omega, h1, h2, h3⟩
        · rintro ⟨j, hj, hlt, h1, h2, h3⟩
          by_cases hjp : j = p
          · subst hjp
            exact Or.inl ⟨by omega, h2 ▸ h3, h2.trans hc.2.symm⟩
          · exact Or.inr ⟨j, by omega, by omega, h1, h2, h3⟩
      · rw [e1, if_pos hc]
        refine iff_of_true rfl (Or.inl ⟨by omega, hc.1, hc.2⟩)
    · constructor
      · rw [e0, if_neg hc, (ih (p + 1)).1]
        constructor
        · rintro ⟨j, hj, hlt, h1, h2, h3⟩
          exact ⟨j, by omega, by omega, h1, h2, h3⟩
        · rintro ⟨j, hj, hlt, h1, h2, h3⟩
          by_cases hjp : j = p
          · subst hjp
            exact absurd ⟨h1 ▸ h3, h1⟩ hc
          · exact ⟨j, by omega, by omega, h1, h2, h3⟩
      · rw [e1, if_neg hc, (ih (p + 1)).1]
        constructor
        · rintro ⟨j, hj, hlt, h1, h2, h3⟩
          exact Or.inr ⟨j, by omega, by omega, h1, h2, h3⟩
        · rintro (⟨hf, hpos2, heq2⟩ | ⟨j, hj, hlt, h1, h2, h3⟩)
          · exact absurd ⟨hpos2, heq2⟩ hc
          · by_cases hjp : j = p
            · subst hjp
              exact absurd ⟨h1 ▸ h3, h1⟩ hc
            · exact ⟨j, by omega, by omega, h1, h2, h3⟩

/-- The polling loop never succeeds when the entry never appears. -/
theorem wurStep_none : ∀ fuel k lastSize stableCount : Nat,
    wurStep (fun _ => none) fuel k (some lastSize) stableCount = false ∧
    wurStep (fun _ => none) fuel k none stableCount = false := by
  intro fuel
  induction fuel with
  | zero => intro k l c; exact ⟨rfl, rfl⟩
  | succ f ih =>
    intro k l c
    exact ⟨(ih (k + 1) l c).1, (ih (k + 1) l c).2⟩

/-- Claim C2 (amended): for an entry observable at every poll, the prober
returns true exactly when, before the timeout elapses, the entry's size is
observed strictly positive and unchanged across three consecutive polls
(the fixed 0.5-time-unit interval gives `2 * timeout` polls); and it
returns false when the entry never appears. -/
theorem wait_until_ready_iff_three_stable_polls :
    (∀ (sizes : Nat → Nat) (timeout : Nat),
      wait_until_ready (fun k => some (sizes k)) timeout = true ↔
        readyThreeConsecutivePolls sizes timeout) ∧
    (∀ timeout : Nat, wait_until_ready (fun _ => none) timeout = false) := by
  constructor
  · intro sizes timeout
    rcases Nat.eq_zero_or_pos timeout with h0 | hpos
    · subst h0
      refine iff_of_false (by simp [wait_until_ready, wurStep]) ?_
      rintro ⟨j, hlt, -⟩
      omega
    · obtain ⟨m, hm⟩ : ∃ m, 2 * timeout = m + 1 := ⟨2 * timeout - 1, by omega⟩
      rw [wait_until_ready, hm]
      have e : wurStep (fun k => some (sizes k)) (m + 1) 0 none 0 =
          wurStep (fun k => some (sizes k)) m 1 (some (sizes 0)) 0 := by
        simp [wurStep]
      rw [e]
      have h01 : (0 : Nat) + 1 = 1 := rfl
      rw [← h01, (wurStep_char sizes m 0).1]
      constructor
      · rintro ⟨j, hj, hlt, h1, h2, h3⟩
        exact ⟨j, by omega, h1, h2, h3⟩
      · rintro ⟨j, hlt, h1, h2, h3⟩
        exact ⟨j, by omega, by omega, h1, h2, h3⟩
  · intro timeout
    exact (wurStep_none (2 * timeout) 0 0 0).2

/-- Claim C2 counterexample: a file of constant size 5 with `timeout = 1`
(two polls).  The size is strictly positive and unchanged across the two
consecutive polls, so the claimed condition holds, yet the prober returns
false (the loop has only reached `stable_count = 1`). -/
theorem wait_until_ready_counterexample :
    wait_until_ready (fun _ => some 5) 1 = false ∧
    readyTwoConsecutivePolls (fun _ => some 5) 1 := by
  constructor
  · rfl
  · exact ⟨0, 5, by omega, rfl, rfl, by omega⟩

theorem mem_insertSpeaker (ks : List String) (t s : String) :
    s ∈ insertSpeaker ks t ↔ s ∈ ks ∨ s = t := by
  by_cases h : t ∈ ks
  · simp only [insertSpeaker, if_pos h]
    constructor
    · exact Or.inl
    · rintro (hs | rfl)
      · exact hs
      · exact h
  · simp [insertSpeaker, if_neg h]

theorem mem_speakerKeys_fold (us : List Utt) : ∀ (ks : List String) (s : String),
    s ∈ us.foldl (fun ks u => insertSpeaker ks u.speaker) ks ↔
      s ∈ ks ∨ s ∈ us.map (fun u => u.speaker) := by
  induction us with
  | nil => intro ks s; simp
  | cons u rest ih =>
    intro ks s
    rw [List.foldl_cons, ih, mem_insertSpeaker]
    simp only [List.map_cons, List.mem_cons]
    tauto

theorem mem_speakerKeys (us : List Utt) (s : String) :
    s ∈ speakerKeys us ↔ s ∈ us.map (fun u => u.speaker) := by
  rw [speakerKeys, mem_speakerKeys_fold]
  simp

theorem foldl_maxBy_spec (us : List Utt) (ks : List String) : ∀ k : String,
    (ks.foldl (fun b k2 => if speakerTotal us b < speakerTotal us k2 then k2 else b) k)
        ∈ k :: ks ∧
    speakerTotal us k ≤ speakerTotal us
      (ks.foldl (fun b k2 => if speakerTotal us b < speakerTotal us k2 then k2 else b) k) ∧
    ∀ x ∈ ks, speakerTotal us x ≤ speakerTotal us
      (ks.foldl (fun b k2 => if speakerTotal us b < speakerTotal us k2 then k2 else b) k) := by
  induction ks with
  | nil =>
    intro k
    exact ⟨List.mem_cons_self k [], le_refl _, by simp⟩
  | cons a ks ih =>
    intro k
    rw [List.foldl_cons]
    by_cases h : speakerTotal us k < speakerTotal us a
    · rw [if_pos h]
      obtain ⟨hmem, hk, hall⟩ := ih a
      refine ⟨List.mem_cons.mpr (Or.inr hmem), le_trans (le_of_lt h) hk, ?_⟩
      · intro x hx
        rcases List.mem_cons.mp hx with rfl | hx
        · exact hk
        · exact hall x hx
    · rw [if_neg h]
      obtain ⟨hmem, hk, hall⟩ := ih k
      refine ⟨?_, hk, ?_⟩
      · rcases List.mem_cons.mp hmem with hr | hr
        · exact List.mem_cons.mpr (Or.inl hr)
        · exact List.mem_cons.mpr (Or.inr (List.mem_cons.mpr (Or.inr hr)))
      · intro x hx
        rcases List.mem_cons.mp hx with rfl | hx
        · exact le_trans (le_of_not_lt h) hk
        · exact hall x hx

/-- Claim C7: the formatter labels exactly the utterances of a speaker of
maximal total character count as "Doctor" and all other speakers'
utterances as "Patient", one line per utterance in original order; the
empty utterance list yields the empty text. -/
theorem format_role_based_text_spec :
    format_role_based_text [] = "" ∧
    ∀ us : List Utt, us ≠ [] →
      ∃ d, d ∈ us.map (fun u => u.speaker) ∧
        (∀ s ∈ us.map (fun u => u.speaker), speakerTotal us s ≤ speakerTotal us d) ∧
        doctor_speaker us = some d ∧
        format_role_based_text us =
          String.intercalate "\n"
            (us.map (fun u =>
              (if u.speaker = d then "Doctor" else "Patient") ++ ": " ++ u.text)) := by
  constructor
  · rfl
  · intro us hne
    obtain ⟨u, rest, rfl⟩ := List.exists_cons_of_ne_nil hne
    have hmemk : u.speaker ∈ speakerKeys (u :: rest) := by
      rw [mem_speakerKeys]
      exact List.mem_map_of_mem _ (List.mem_cons_self u rest)
    cases hKc : speakerKeys (u :: rest) with
    | nil => rw [hKc] at hmemk; exact absurd hmemk (List.not_mem_nil _)
    | cons k ks =>
      obtain ⟨hmem, hk, hall⟩ := foldl_maxBy_spec (u :: rest) ks k
      set d := ks.foldl
        (fun b k2 => if speakerTotal (u :: rest) b < speakerTotal (u :: rest) k2 then k2 else b) k
        with hdd
      have hd : doctor_speaker (u :: rest) = some d := by
        rw [doctor_speaker, hKc, maxBySpeakerTotal]
      refine ⟨d, ?_, ?_, hd, ?_⟩
      · rw [← mem_speakerKeys, hKc]
        exact hmem
      · intro s hs
        rw [← mem_speakerKeys (u :: rest) s, hKc] at hs
        rcases List.mem_cons.mp hs with rfl | hs
        · exact hk
        · exact hall s hs
      · simp only [format_role_based_text, hd, Option.some.injEq]

/-- Closed-input instance of `format_role_based_text_spec` on a concrete
two-speaker conversation. -/
theorem format_role_based_text_spec_witness :
    format_role_based_text [] = "" ∧
    ∃ d, d ∈ ([Utt.mk "A" "hello" 0 0, Utt.mk "B" "hi" 0 0].map (fun u => u.speaker)) ∧
      (∀ s ∈ [Utt.mk "A" "hello" 0 0, Utt.mk "B" "hi" 0 0].map (fun u => u.speaker),
        speakerTotal [Utt.mk "A" "hello" 0 0, Utt.mk "B" "hi" 0 0] s ≤
          speakerTotal [Utt.mk "A" "hello" 0 0, Utt.mk "B" "hi" 0 0] d) ∧
      doctor_speaker [Utt.mk "A" "hello" 0 0, Utt.mk "B" "hi" 0 0] = some d ∧
      format_role_based_text [Utt.mk "A" "hello" 0 0, Utt.mk "B" "hi" 0 0] =
        String.intercalate "\n"
          ([Utt.mk "A" "hello" 0 0, Utt.mk "B" "hi" 0 0].map (fun u =>
            (if u.speaker = d then "Doctor" else "Patient") ++ ": " ++ u.text)) :=
  ⟨format_role_based_text_spec.1,
    format_role_based_text_spec.2 [Utt.mk "A" "hello" 0 0, Utt.mk "B" "hi" 0 0] (by simp)⟩

/-- Claim C4: for a detected language other than the default, the
translated summary record has exactly the keys of the native record in
the same order, every list value maps to a list of the same length with
elementwise translation, every scalar value is replaced by its
translation, and no key is altered. -/
theorem summaryFinal_shape (tr : String → String → String) (lang : String)
    (rec : SummaryRecord) (h : lang ≠ "en") :
    (summaryFinal (fun x => tr x lang) lang rec).map Prod.fst = rec.map Prod.fst ∧
    (summaryFinal (fun x => tr x lang) lang rec).length = rec.length ∧
    (∀ k v, (k, JVal.s v) ∈ rec →
      (k, JVal.s (tr v lang)) ∈ summaryFinal (fun x => tr x lang) lang rec) ∧
    (∀ k l, (k, JVal.arr l) ∈ rec →
      (k, JVal.arr (l.map (fun x => tr x lang))) ∈
          summaryFinal (fun x => tr x lang) lang rec ∧
        (l.map (fun x => tr x lang)).length = l.length) := by
  have hs : summaryFinal (fun x => tr x lang) lang rec =
      translateSummaryRecord (fun x => tr x lang) rec := by
    rw [summaryFinal, if_pos h]
  refine ⟨?_, ?_, ?_, ?_⟩
  · rw [hs, translateSummaryRecord, List.map_map]
    rfl
  · rw [hs, translateSummaryRecord, List.length_map]
  · intro k v hm
    rw [hs, translateSummaryRecord]
    exact List.mem_map_of_mem _ hm
  · intro k l hm
    refine ⟨?_, by rw [List.length_map]⟩
    rw [hs, translateSummaryRecord]
    exact List.mem_map_of_mem _ hm

/-- Closed-input instance of `summaryFinal_shape` at the record
`{a: "x", b: ["y", "z"]}` and target language `hi`. -/
theorem summaryFinal_shape_witness :
    ("hi" : String) ≠ "en" ∧
    (summaryFinal (fun x => x) "hi"
        [("a", JVal.s "x"), ("b", JVal.arr ["y", "z"])]).map Prod.fst =
      [("a", JVal.s "x"), ("b", JVal.arr ["y", "z"])].map Prod.fst :=
  ⟨by decide,
    (summaryFinal_shape (fun s _ => s) "hi"
      [("a", JVal.s "x"), ("b", JVal.arr ["y", "z"])] (by decide)).1⟩

/-- Claim C10: blank text (empty or whitespace-only) is returned
unchanged by `translate_text` without invoking the provider, for every
target language; consequently blank scalar values and blank list elements
of a summary record survive the translation step byte-for-byte. -/
theorem translate_text_blank :
    (∀ (provider : String → String → String) (target text : String),
      pyStrip text = "" → translate_text provider text target = (text, false)) ∧
    (∀ (provider : String → String → String) (lang : String)
        (rec : SummaryRecord) (k v : String),
      (k, JVal.s v) ∈ rec → pyStrip v = "" →
        (k, JVal.s v) ∈
          summaryFinal (fun x => (translate_text provider x lang).1) lang rec) ∧
    (∀ (provider : String → String → String) (lang : String)
        (rec : SummaryRecord) (k : String) (l : List String),
      (k, JVal.arr l) ∈ rec →
        ∃ l2, (k, JVal.arr l2) ∈
            summaryFinal (fun x => (translate_text provider x lang).1) lang rec ∧
          l2.length = l.length ∧
          ∀ (i : Nat) (h1 : i < l.length) (h2 : i < l2.length),
            pyStrip (l.get ⟨i, h1⟩) = "" → l2.get ⟨i, h2⟩ = l.get ⟨i, h1⟩) := by
  have hval : ∀ (provider : String → String → String) (lang v : String),
      pyStrip v = "" → (translate_text provider v lang).1 = v := by
    intro provider lang v hb
    rw [translate_text, if_pos (Or.inr hb)]
  refine ⟨?_, ?_, ?_⟩
  · intro provider target text hb
    rw [translate_text, if_pos (Or.inr hb)]
  · intro provider lang rec k v hm hb
    by_cases he : lang = "en"
    · subst he
      simpa [summaryFinal] using hm
    · rw [summaryFinal, if_pos he, translateSummaryRecord]
      have := List.mem_map_of_mem
        (fun kv => (kv.1, translateVal (fun x => (translate_text provider x lang).1) kv.2)) hm
      simpa [translateVal, hval provider lang v hb] using this
  · intro provider lang rec k l hm
    by_cases he : lang = "en"
    · subst he
      refine ⟨l, by simpa [summaryFinal] using hm, rfl, ?_⟩
      intro i h1 h2 _
      rfl
    · refine ⟨l.map (fun x => (translate_text provider x lang).1), ?_, by simp, ?_⟩
      · rw [summaryFinal, if_pos he, translateSummaryRecord]
        have := List.mem_map_of_mem
          (fun kv => (kv.1, translateVal (fun x => (translate_text provider x lang).1) kv.2)) hm
        simpa [translateVal] using this
      · intro i h1 h2 hb
        rw [List.get_eq_getElem, List.getElem_map]
        exact hval provider lang _ (by simpa using hb)

/-- Closed-input instance of `translate_text_blank` on the literal
one-space string. -/
theorem translate_text_blank_witness :
    pyStrip " " = "" ∧ translate_text (fun s _ => s) " " "hi" = (" ", false) :=
  ⟨by decide, translate_text_blank.1 (fun s _ => s) "hi" " " (by decide)⟩

/-- The sleeps a pipeline run performs are exactly the sleeps of its
transcription retry loop (no other stage sleeps). -/
theorem process_audio_pipeline_sleeps (env : PipelineEnv) (base source : String) :
    (process_audio_pipeline env base source).sleeps =
      (transcribeLoop env.transcribe).2.1 := by
  rw [process_audio_pipeline]
  rcases htr : transcribeLoop env.transcribe with ⟨otr, sleeps, calls⟩
  cases otr with
  | none => rfl
  | some t =>
    repeat (first | rfl | simp_all | split)

/-- Claim C3: when every transcription call raises, the run makes exactly
2 attempts with a single 2-time-unit backoff between them, writes a
terminal error status recording the transcription failure, and reports
failure; and a backoff happens only after a first-attempt exception —
never when the first call returns (even with an empty transcript). -/
theorem transcription_retry_then_fail :
    (∀ (env : PipelineEnv) (base source : String),
      (∀ n, ∃ e, env.transcribe n = Except.error e) →
        (process_audio_pipeline env base source).success = false ∧
        (process_audio_pipeline env base source).sleeps = [2] ∧
        (process_audio_pipeline env base source).transcribeCalls = 2 ∧
        (process_audio_pipeline env base source).statuses =
          [{ source := some source, file := some base, stage := "transcribing",
             message := "Transcribing audio...", progress := 20 },
           errorStatus source base "Transcription failed or empty"]) ∧
    (∀ (env : PipelineEnv) (base source : String) (t0 : Transcript),
      env.transcribe 0 = Except.ok t0 →
        (process_audio_pipeline env base source).sleeps = []) := by
  constructor
  · intro env base source h
    obtain ⟨e0, h0⟩ := h 0
    obtain ⟨e1, h1⟩ := h 1
    have hloop : transcribeLoop env.transcribe = (none, [2], 2) := by
      rw [transcribeLoop, h0, h1]
    refine ⟨?_, ?_, ?_, ?_⟩ <;>
      simp [process_audio_pipeline, hloop]
  · intro env base source t0 h0
    rw [process_audio_pipeline_sleeps, transcribeLoop, h0]
    by_cases ht : t0.text = ""
    · cases h1 : env.transcribe 1 with
      | ok t1 => simp [ht, h1]
      | error e => simp [ht, h1]
    · simp [ht]

/-- Closed-input instance of `transcription_retry_then_fail`: a provider
that always raises, and one that returns an empty transcript on the
first call. -/
theorem transcription_retry_then_fail_witness :
    ((process_audio_pipeline
        ⟨fun _ => Except.error "api down", fun _ => Except.error "unused",
          fun s _ => s, fun _ _ => Except.ok ()⟩ "job1" "web").success = false ∧
      (process_audio_pipeline
        ⟨fun _ => Except.error "api down", fun _ => Except.error "unused",
          fun s _ => s, fun _ _ => Except.ok ()⟩ "job1" "web").sleeps = [2] ∧
      (process_audio_pipeline
        ⟨fun _ => Except.error "api down", fun _ => Except.error "unused",
          fun s _ => s, fun _ _ => Except.ok ()⟩ "job1" "web").transcribeCalls = 2 ∧
      (process_audio_pipeline
        ⟨fun _ => Except.error "api down", fun _ => Except.error "unused",
          fun s _ => s, fun _ _ => Except.ok ()⟩ "job1" "web").statuses =
        [{ source := some "web", file := some "job1", stage := "transcribing",
           message := "Transcribing audio...", progress := 20 },
         errorStatus "web" "job1" "Transcription failed or empty"]) ∧
    (process_audio_pipeline
        ⟨fun _ => Except.ok ⟨"hello", []⟩, fun _ => Except.error "skip",
          fun s _ => s, fun _ _ => Except.ok ()⟩ "job2" "web").sleeps = [] :=
  ⟨transcription_retry_then_fail.1 _ "job1" "web" (fun _ => ⟨"api down", rfl⟩),
    transcription_retry_then_fail.2 _ "job2" "web" ⟨"hello", []⟩ rfl⟩

/-- Claim C5: `get_status` is total (never raises: the catch-all handler
converts a read failure into a synthetic record) and behaves exactly as
the read contract states — fresh cache hit, reload with cache
repopulation, default idle record when no durable record exists, and the
synthetic unavailability record on a durable-storage error. -/
theorem get_status_meets_specification (cache : StatusCache) (now ttl : Int)
    (fs : DurableStatus) :
    get_status cache now ttl fs = get_status_specification cache now ttl fs := by
  rcases cache with ⟨cdata, cts⟩
  cases cdata with
  | none => cases fs <;> rfl
  | some d =>
    by_cases ht : now - cts < ttl
    · simp [get_status, get_status_body, get_status_specification, ht]
    · cases fs <;>
        simp [get_status, get_status_body, get_status_specification, ht]

/-- Claim C6 counterexample: a failed durable persist skips the cache
refresh (the cache assignments sit after the file write inside the `try`
block), so after `write_status` the cache does not hold the just-stamped
record — here the cache is still empty. -/
theorem write_status_cache_counterexample :
    (write_status false none ⟨none, 0⟩ idleStatus 5).2.data ≠
      some { idleStatus with timestamp := some (5 : Int) } ∧
    (write_status false none ⟨none, 0⟩ idleStatus 5).2.data = none := by
  constructor
  · intro h
    exact Option.noConfusion h
  · rfl

/-- Claim C6 (amended): `write_status` stamps the record with the current
time; when the durable persist succeeds it writes the stamped record and
refreshes the cache with it; when the persist fails the exception is
swallowed and the cache (and modelled file state) are left unchanged. -/
theorem write_status_stamps_and_caches (persistOk : Bool) (file : Option Status)
    (cache : StatusCache) (data : Status) (now : Int) :
    (persistOk = true →
      write_status persistOk file cache data now =
        (some { data with timestamp := some now },
          ⟨some { data with timestamp := some now }, now⟩)) ∧
    (persistOk = false →
      write_status persistOk file cache data now = (file, cache)) := by
  constructor
  · intro h
    subst h
    rfl
  · intro h
    subst h
    rfl

/-- Closed-input instances of `write_status_stamps_and_caches` for a
successful and a failed persist. -/
theorem write_status_stamps_and_caches_witness :
    write_status true none ⟨none, 0⟩ idleStatus 5 =
      (some { idleStatus with timestamp := some (5 : Int) },
        ⟨some { idleStatus with timestamp := some (5 : Int) }, 5⟩) ∧
    write_status false none ⟨none, 0⟩ idleStatus 5 = (none, ⟨none, 0⟩) :=
  ⟨(write_status_stamps_and_caches true none ⟨none, 0⟩ idleStatus 5).1 rfl,
    (write_status_stamps_and_caches false none ⟨none, 0⟩ idleStatus 5).2 rfl⟩

/-- Claim C8: the original filename is added to the dedup ledger and the
ledger persisted iff the launched run succeeds; a failed run leaves the
ledger unchanged (so the name stays absent); a name already in the ledger
never launches a job; and any skipped file leaves ledger and persistence
untouched. -/
theorem bluetooth_watcher_dedup (processed : List String) (f : WatchedFile)
    (runSuccess : Bool) :
    (f.name ∈ processed →
      bluetooth_watcher_handle_file processed f runSuccess =
        ⟨false, processed, false⟩) ∧
    ((bluetooth_watcher_handle_file processed f runSuccess).launched = true →
      f.name ∉ processed) ∧
    ((bluetooth_watcher_handle_file processed f runSuccess).launched = true →
      ((f.name ∈ (bluetooth_watcher_handle_file processed f runSuccess).processed ∧
        (bluetooth_watcher_handle_file processed f runSuccess).saved = true) ↔
        runSuccess = true)) ∧
    ((bluetooth_watcher_handle_file processed f runSuccess).launched = true →
      runSuccess = false →
        (bluetooth_watcher_handle_file processed f runSuccess).processed = processed) ∧
    ((bluetooth_watcher_handle_file processed f runSuccess).launched = false →
      (bluetooth_watcher_handle_file processed f runSuccess).processed = processed ∧
      (bluetooth_watcher_handle_file processed f runSuccess).saved = false) := by
  unfold bluetooth_watcher_handle_file
  repeat' split
  all_goals (first | rfl | simp_all)

/-- Closed-input instances of `bluetooth_watcher_dedup`: a file whose
name is already in the ledger is skipped; a fresh file whose run succeeds
is added to the ledger and persisted. -/
theorem bluetooth_watcher_dedup_witness :
    bluetooth_watcher_handle_file ["a.wav"]
        ⟨"a.wav", true, ".wav", some 5, true⟩ true = ⟨false, ["a.wav"], false⟩ ∧
    (("b.wav" ∈ (bluetooth_watcher_handle_file ["a.wav"]
          ⟨"b.wav", true, ".wav", some 5, true⟩ true).processed ∧
        (bluetooth_watcher_handle_file ["a.wav"]
          ⟨"b.wav", true, ".wav", some 5, true⟩ true).saved = true) ↔ true = true) :=
  ⟨(bluetooth_watcher_dedup ["a.wav"] ⟨"a.wav", true, ".wav", some 5, true⟩ true).1
      (by decide),
    (bluetooth_watcher_dedup ["a.wav"] ⟨"b.wav", true, ".wav", some 5, true⟩ true).2.2.1
      (by decide)⟩

/-- A queued thread is never rejected: whenever a permit is free it can
acquire, entering the guarded region. -/
theorem gate_blocked_not_rejected (s : GateState)
    (hc : 0 < s.counter) (hq : 0 < s.queued) :
    ∃ s2, GateStep s s2 ∧ s2.running = s.running + 1 ∧
      s2.queued = s.queued - 1 ∧ s2.counter = s.counter - 1 := by
  rcases s with ⟨c, i, q, r, d⟩
  cases c with
  | zero => exact absurd hc (lt_irrefl 0)
  | succ c2 =>
    cases q with
    | zero => exact absurd hq (lt_irrefl 0)
    | succ q2 =>
      exact ⟨⟨c2, i, q2, r + 1, d⟩, GateStep.blockedAcquire c2 i q2 r d, rfl, rfl, rfl⟩

/-- The gate's inductive invariant: free permits plus running threads
always equal the ceiling, and threads are conserved. -/
theorem gate_invariant (N M : Nat) : ∀ s, GateReachable N M s →
    s.counter + s.running = N ∧
    s.idle + s.queued + s.running + s.released = M := by
  intro s h
  induction h with
  | init => exact ⟨by simp, by simp⟩
  | step hr hstep ih =>
    obtain ⟨ih1, ih2⟩ := ih
    cases hstep <;> (dsimp only at ih1 ih2 ⊢; exact ⟨by omega, by omega⟩)

/-- Claim C9: with ceiling `N`, at most `N` threads are ever inside the
guarded region; a saturated submission is queued (after the warning
probe), never rejected, and acquires as soon as a permit frees up; and
every run that acquired releases exactly once (the permit/thread
accounting `counter + running = N` and thread conservation hold in every
reachable state). -/
theorem gate_concurrency_bound (N M : Nat) (s : GateState)
    (h : GateReachable N M s) :
    s.running ≤ N ∧
    s.counter + s.running = N ∧
    s.idle + s.queued + s.running + s.released = M ∧
    (0 < s.counter → 0 < s.queued →
      ∃ s2, GateStep s s2 ∧ s2.running = s.running + 1 ∧
        s2.queued = s.queued - 1 ∧ s2.counter = s.counter - 1) := by
  obtain ⟨h1, h2⟩ := gate_invariant N M s h
  exact ⟨by omega, h1, h2, fun hc hq => gate_blocked_not_rejected s hc hq⟩

/-- Closed-input instance of `gate_concurrency_bound`: ceiling 3, five
threads; three have acquired, a fourth's probe failed (it queued), then
one runner released its permit — the queued thread can now acquire and
the bound holds throughout. -/
theorem gate_concurrency_bound_witness :
    GateReachable 3 5 ⟨1, 1, 1, 2, 1⟩ ∧
    ((GateState.mk 1 1 1 2 1).running ≤ 3 ∧
      (GateState.mk 1 1 1 2 1).counter + (GateState.mk 1 1 1 2 1).running = 3 ∧
      (GateState.mk 1 1 1 2 1).idle + (GateState.mk 1 1 1 2 1).queued +
        (GateState.mk 1 1 1 2 1).running + (GateState.mk 1 1 1 2 1).released = 5 ∧
      (0 < (GateState.mk 1 1 1 2 1).counter → 0 < (GateState.mk 1 1 1 2 1).queued →
        ∃ s2, GateStep (GateState.mk 1 1 1 2 1) s2 ∧
          s2.running = (GateState.mk 1 1 1 2 1).running + 1 ∧
          s2.queued = (GateState.mk 1 1 1 2 1).queued - 1 ∧
          s2.counter = (GateState.mk 1 1 1 2 1).counter - 1)) := by
  have hreach : GateReachable 3 5 ⟨1, 1, 1, 2, 1⟩ :=
    GateReachable.step
      (GateReachable.step
        (GateReachable.step
          (GateReachable.step
            (GateReachable.step GateReachable.init
              (GateStep.probeAcquire 2 4 0 0 0))
            (GateStep.probeAcquire 1 3 0 1 0))
          (GateStep.probeAcquire 0 2 0 2 0))
        (GateStep.probeFailQueue 1 0 3 0))
      (GateStep.finallyRelease 0 1 1 2 0)
  exact ⟨hreach, gate_concurrency_bound 3 5 ⟨1, 1, 1, 2, 1⟩ hreach⟩
